import Mathlib

/-!
Verification model of the expense-tracker service layer.

The model is a shallow embedding of `app/services/category_service.py`,
`app/services/expense_service.py`, the entity declarations in
`app/models/category.py` and `app/models/expense.py`, and the input
contracts in `app/schemas/expense.py`.

The relational store is a pair of lists of rows.  Each service operation
is a pure function from a store (plus the operation input, and the
current date where the source consults `date.today()`) to `Except` of a
domain error or a pair of the new store and the returned entity, which
mirrors the commit-on-success / rollback-on-error transaction model: an
`Except.error` result leaves the caller with the unchanged store.

Monetary values are python `Decimal`s; a `Decimal` is modelled by its
integer mantissa and its non-negative decimal scale (the number of
fractional digits carried by the value, `5.10` having scale 2 and `5.1`
scale 1), with `Dec.toRat` giving the numeric value.
-/

/-- Model of python's `Decimal`: value `mantissa / 10 ^ scale`. -/
structure Dec where
  mantissa : Int
  scale : Nat
deriving DecidableEq

/-- Numeric value of a `Dec`. -/
def Dec.toRat (d : Dec) : ℚ := (d.mantissa : ℚ) / (10 : ℚ) ^ d.scale

/-- The comparison `amount <= 0` performed by the service layer, computed on
the mantissa (which carries the sign of the value). -/
def Dec.isNonpos (d : Dec) : Bool := d.mantissa ≤ 0

/-- Row of the `categories` table (`app/models/category.py`): id, name,
optional description, icon and color.  The store-managed timestamps play no
role in any service rule and are omitted. -/
structure Category where
  id : Nat
  name : String
  description : Option String
  icon : Option String
  color : Option String
deriving DecidableEq

/-- Row of the `expenses` table (`app/models/expense.py`).  `expense_date`
is a calendar date counted in days. -/
structure Expense where
  id : Nat
  amount : Dec
  description : String
  expense_date : Nat
  category_id : Nat
  notes : Option String
deriving DecidableEq

/-- The relational store: the two tables. -/
structure Store where
  categories : List Category
  expenses : List Expense
deriving DecidableEq

/-- `db.get(Category, cid)`: primary-key lookup. -/
def Store.getCategory (s : Store) (cid : Nat) : Option Category :=
  s.categories.find? (fun c => c.id == cid)

/-- `db.get(Expense, eid)`: primary-key lookup. -/
def Store.getExpense (s : Store) (eid : Nat) : Option Expense :=
  s.expenses.find? (fun e => e.id == eid)

/-- `select(Category).where(Category.name == name)` with
`scalar_one_or_none()` (CategoryService.get_category_by_name). -/
def Store.getCategoryByName (s : Store) (n : String) : Option Category :=
  s.categories.find? (fun c => c.name == n)

/-- Autoincrement id assignment for a fresh category row. -/
def Store.nextCategoryId (s : Store) : Nat :=
  (s.categories.map Category.id).foldr max 0 + 1

/-- Autoincrement id assignment for a fresh expense row. -/
def Store.nextExpenseId (s : Store) : Nat :=
  (s.expenses.map Expense.id).foldr max 0 + 1

/-- Store invariants maintained by the schema: primary keys are unique and
the `name` column of `categories` carries a unique constraint. -/
def Store.wf (s : Store) : Prop :=
  (s.categories.map Category.id).Nodup ∧
  (s.categories.map Category.name).Nodup ∧
  (s.expenses.map Expense.id).Nodup

instance (s : Store) : Decidable s.wf := by
  unfold Store.wf; infer_instance

/-- The three domain error kinds of `app/exceptions.py`
(`EntityNotFoundException.not_found`, `ValidationException.invalid_data`,
`DuplicateEntityException.duplicate`), with their structured detail. -/
inductive ServiceError where
  | notFound (entity : String) (id : Nat)
  | validation (field : String) (reason : String)
  | duplicate (entity : String) (field : String) (value : String)
deriving DecidableEq

/-- The store seen by the caller after a service call: the new store on
success, the unchanged store on error (transaction rollback). -/
def resultStore {α : Type} (r : Except ServiceError (Store × α)) (s : Store) : Store :=
  match r with
  | .ok (s', _) => s'
  | .error _ => s

/-- Payload of `CategoryCreate` (`app/schemas/category.py`). -/
structure CategoryCreate where
  name : String
  description : Option String
  icon : Option String
  color : Option String
deriving DecidableEq

/-- Payload of `CategoryUpdate` after `model_dump(exclude_unset=True)`:
the outer `Option` is field presence (`none` = not supplied), the inner
value is what the field is set to. -/
structure CategoryUpdate where
  name : Option String
  description : Option (Option String)
  icon : Option (Option String)
  color : Option (Option String)
deriving DecidableEq

/-- Payload of `ExpenseCreate` (`app/schemas/expense.py`). -/
structure ExpenseCreate where
  amount : Dec
  description : String
  expense_date : Nat
  category_id : Nat
  notes : Option String
deriving DecidableEq

/-- Payload of `ExpenseUpdate` after `model_dump(exclude_unset=True)`:
the outer `Option` is field presence. -/
structure ExpenseUpdate where
  description : Option String
  amount : Option Dec
  expense_date : Option Nat
  category_id : Option Nat
  notes : Option (Option String)
deriving DecidableEq

/-- `CategoryService.create_category`. -/
def CategoryService.create_category (s : Store) (d : CategoryCreate) :
    Except ServiceError (Store × Category) :=
  match s.getCategoryByName d.name with
  | some _ => .error (.duplicate "Category" "name" d.name)
  | none =>
    let c : Category :=
      ⟨s.nextCategoryId, d.name, d.description, d.icon, d.color⟩
    .ok ({ s with categories := s.categories ++ [c] }, c)

/-- The `setattr` loop of `CategoryService.update_category`: overwrite
exactly the supplied fields. -/
def applyCategoryUpdate (c : Category) (d : CategoryUpdate) : Category :=
  { c with
    name := d.name.getD c.name
    description := d.description.getD c.description
    icon := d.icon.getD c.icon
    color := d.color.getD c.color }

/-- `CategoryService.update_category`. -/
def CategoryService.update_category (s : Store) (cid : Nat) (d : CategoryUpdate) :
    Except ServiceError (Store × Category) :=
  match s.getCategory cid with
  | none => .error (.notFound "Category" cid)
  | some c =>
    let nameError : Option ServiceError :=
      match d.name with
      | none => none
      | some n =>
        match s.getCategoryByName n with
        | some existing =>
          if existing.id ≠ cid then some (.duplicate "Category" "name" n) else none
        | none => none
    match nameError with
    | some err => .error err
    | none =>
      let c' := applyCategoryUpdate c d
      .ok ({ s with categories := s.categories.map (fun x => if x.id == cid then c' else x) }, c')

/-- `CategoryService.delete_category`: deleting the category cascades to
every expense whose `category_id` references it (`cascade="all,
delete-orphan"` on `Category.expenses`, `ondelete="CASCADE"` on
`Expense.category_id`). -/
def CategoryService.delete_category (s : Store) (cid : Nat) :
    Except ServiceError (Store × Bool) :=
  match s.getCategory cid with
  | none => .error (.notFound "Category" cid)
  | some _ =>
    .ok (⟨s.categories.filter (fun c => c.id != cid),
          s.expenses.filter (fun e => e.category_id != cid)⟩, true)

/-- `CategoryService.get_categories_with_expense_count`: the left-join
aggregate grouped by the `categories` primary key; `count(Expense.id)`
counts the non-null joined rows, so it is the number of expenses
referencing the category. -/
def CategoryService.get_categories_with_expense_count (s : Store) :
    List (Category × Nat) :=
  s.categories.map
    (fun c => (c, (s.expenses.filter (fun e => e.category_id == c.id)).length))

/-- `ExpenseService.create_expense`: category-existence check, then the
amount check, then the date check, then the insert. -/
def ExpenseService.create_expense (s : Store) (today : Nat) (d : ExpenseCreate) :
    Except ServiceError (Store × Expense) :=
  match s.getCategory d.category_id with
  | none => .error (.notFound "Category" d.category_id)
  | some _ =>
    if Dec.isNonpos d.amount then
      .error (.validation "amount" "must be positive")
    else if today < d.expense_date then
      .error (.validation "expense_date" "cannot be in the future")
    else
      let e : Expense :=
        ⟨s.nextExpenseId, d.amount, d.description, d.expense_date, d.category_id, d.notes⟩
      .ok ({ s with expenses := s.expenses ++ [e] }, e)

/-- The `setattr` loop of `ExpenseService.update_expense`. -/
def applyExpenseUpdate (e : Expense) (d : ExpenseUpdate) : Expense :=
  { e with
    description := d.description.getD e.description
    amount := d.amount.getD e.amount
    expense_date := d.expense_date.getD e.expense_date
    category_id := d.category_id.getD e.category_id
    notes := d.notes.getD e.notes }

/-- `ExpenseService.update_expense`: expense lookup, then the three
validations applied only to supplied fields, then the field writes. -/
def ExpenseService.update_expense (s : Store) (today : Nat) (eid : Nat)
    (d : ExpenseUpdate) : Except ServiceError (Store × Expense) :=
  match s.getExpense eid with
  | none => .error (.notFound "Expense" eid)
  | some e =>
    let categoryError : Option ServiceError :=
      match d.category_id with
      | none => none
      | some cid =>
        match s.getCategory cid with
        | none => some (.notFound "Category" cid)
        | some _ => none
    match categoryError with
    | some err => .error err
    | none =>
      if (match d.amount with
          | some a => Dec.isNonpos a
          | none => false) then
        .error (.validation "amount" "must be positive")
      else if (match d.expense_date with
               | some dt => decide (today < dt)
               | none => false) then
        .error (.validation "expense_date" "cannot be in the future")
      else
        let e' := applyExpenseUpdate e d
        .ok ({ s with expenses := s.expenses.map (fun x => if x.id == eid then e' else x) }, e')

/-- `select(func.coalesce(func.sum(Expense.amount), 0))`: SQL `sum` is
`NULL` on an empty table, and `coalesce` turns that into `0`. -/
def sqlSumAmounts (l : List ℚ) : Option ℚ :=
  if l.isEmpty then none else some l.sum

/-- `ExpenseService.get_total_expense_amount`. -/
def ExpenseService.get_total_expense_amount (s : Store) : ℚ :=
  (sqlSumAmounts (s.expenses.map (fun e => e.amount.toRat))).getD 0

/-- SQL `lower()`: character-wise lowercasing. -/
def lowerList (s : String) : List Char := s.toList.map Char.toLower

/-- SQL `LIKE` pattern matching: `%` matches any sequence of characters,
`_` matches exactly one character, any other pattern character matches
itself. -/
def likeMatches : List Char → List Char → Bool
  | [], s => s.isEmpty
  | p :: ps, s =>
    if p = '%' then
      s.tails.any (fun t => likeMatches ps t)
    else
      match s with
      | [] => false
      | c :: s' => (if p = '_' then true else p == c) && likeMatches ps s'

/-- `Expense.description.ilike(f"%\x7bkeyword\x7d%")`: case-insensitive
`LIKE` against the pattern `%keyword%`. -/
def ilikeContains (keyword description : String) : Bool :=
  likeMatches ('%' :: (lowerList keyword ++ ['%'])) (lowerList description)

/-- `ExpenseService.search_expenses`. -/
def ExpenseService.search_expenses (s : Store) (keyword : String) : List Expense :=
  s.expenses.filter (fun e => ilikeContains keyword e.description)

/-- The `amount` contract of `ExpenseBase` (`app/schemas/expense.py`):
`Field(..., gt=0, decimal_places=2)`.  `gt=0` compares the numeric value;
`decimal_places=2` bounds the number of fractional digits by 2 (it is an
upper bound, not an exact requirement). -/
def amountFieldOk (a : Dec) : Bool :=
  (0 < a.mantissa) && (a.scale ≤ 2)

/-- The input contract of `ExpenseCreate` / `ExpenseBase`: amount
constraints, description length 1..255, category_id > 0, notes length
at most 500. -/
def ExpenseCreate.schemaAccepts (d : ExpenseCreate) : Bool :=
  amountFieldOk d.amount &&
  (1 ≤ d.description.length) && (d.description.length ≤ 255) &&
  (0 < d.category_id) &&
  (match d.notes with
   | some n => n.length ≤ 500
   | none => true)

/-- The input contract of `ExpenseUpdate`: each constraint applies only
when the field is supplied. -/
def ExpenseUpdate.schemaAccepts (d : ExpenseUpdate) : Bool :=
  (match d.amount with
   | some a => amountFieldOk a
   | none => true) &&
  (match d.description with
   | some t => (1 ≤ t.length) && (t.length ≤ 255)
   | none => true) &&
  (match d.category_id with
   | some c => 0 < c
   | none => true) &&
  (match d.notes with
   | some (some n) => n.length ≤ 500
   | _ => true)

/-! ### Basic lemmas about the model -/

/-- The mantissa-level non-positivity test agrees with the numeric value. -/
theorem Dec.isNonpos_iff (d : Dec) : Dec.isNonpos d = true ↔ d.toRat ≤ 0 := by
  have hpow : (0 : ℚ) < (10 : ℚ) ^ d.scale := by positivity
  unfold Dec.isNonpos Dec.toRat
  rw [decide_eq_true_eq]
  constructor
  · intro h
    apply div_nonpos_of_nonpos_of_nonneg
    · exact_mod_cast h
    · exact le_of_lt hpow
  · intro h
    rcases div_nonpos_iff.mp h with ⟨_, h2⟩ | ⟨h1, _⟩
    · exact absurd hpow (not_lt.mpr h2)
    · exact_mod_cast h1

/-- The mantissa carries the sign of the value. -/
theorem Dec.pos_iff (d : Dec) : 0 < d.toRat ↔ 0 < d.mantissa := by
  rw [← not_le, ← not_le, not_iff_not, ← Dec.isNonpos_iff]
  unfold Dec.isNonpos
  rw [decide_eq_true_eq]

/-- `find?` returns the unique element satisfying the predicate. -/
theorem find?_unique {α : Type} (p : α → Bool) (l : List α) (c : α)
    (hc : c ∈ l) (hp : p c = true) (huniq : ∀ x ∈ l, p x = true → x = c) :
    l.find? p = some c := by
  induction l with
  | nil => cases hc
  | cons a l ih =>
    by_cases hpa : p a = true
    · have : a = c := huniq a (List.mem_cons_self a l) hpa
      subst this
      exact List.find?_cons_of_pos l hpa
    · rw [List.find?_cons_of_neg l (by simpa using hpa)]
      rcases List.mem_cons.mp hc with rfl | hc'
      · exact absurd hp hpa
      · exact ih hc' (fun x hx hpx => huniq x (List.mem_cons_of_mem _ hx) hpx)

/-- In a well-formed store, primary-key lookup of a present category row
returns that row. -/
theorem getCategory_of_mem (s : Store) (hwf : s.wf) (c : Category)
    (hc : c ∈ s.categories) : s.getCategory c.id = some c := by
  apply find?_unique _ _ _ hc (by simp)
  intro x hx hpx
  exact List.inj_on_of_nodup_map hwf.1 hx hc (by simpa using hpx)

/-- In a well-formed store, primary-key lookup of a present expense row
returns that row. -/
theorem getExpense_of_mem (s : Store) (hwf : s.wf) (e : Expense)
    (he : e ∈ s.expenses) : s.getExpense e.id = some e := by
  apply find?_unique _ _ _ he (by simp)
  intro x hx hpx
  exact List.inj_on_of_nodup_map hwf.2.2 hx he (by simpa using hpx)

/-- In a well-formed store, name lookup of a present category row returns
that row. -/
theorem getCategoryByName_of_mem (s : Store) (hwf : s.wf) (c : Category)
    (hc : c ∈ s.categories) : s.getCategoryByName c.name = some c := by
  apply find?_unique _ _ _ hc (by simp)
  intro x hx hpx
  exact List.inj_on_of_nodup_map hwf.2.1 hx hc (by simpa using hpx)

/-- A duplicate-free list all of whose members are equal to `c` has at most
one element. -/
theorem length_le_one_of_nodup_of_all_eq {α : Type} (l : List α) (hl : l.Nodup)
    (c : α) (h : ∀ x ∈ l, x = c) : l.length ≤ 1 := by
  match l with
  | [] => simp
  | [x] => simp
  | x :: y :: t =>
    exfalso
    have hx := h x (by simp)
    have hy := h y (by simp)
    rw [List.nodup_cons] at hl
    exact hl.1 (by rw [hx, ← hy]; exact List.mem_cons_self y t)

/-- In a well-formed store, a present category's name is carried by exactly
one row. -/
theorem countP_name_eq_one (s : Store) (hwf : s.wf) (c : Category)
    (hc : c ∈ s.categories) :
    s.categories.countP (fun x => x.name == c.name) = 1 := by
  rw [List.countP_eq_length_filter]
  have hmem : c ∈ s.categories.filter (fun x => x.name == c.name) :=
    List.mem_filter.mpr ⟨hc, by simp⟩
  have hub : (s.categories.filter (fun x => x.name == c.name)).length ≤ 1 := by
    apply length_le_one_of_nodup_of_all_eq _ (List.Nodup.filter _ (hwf.2.1.of_map _)) c
    intro x hx
    rcases List.mem_filter.mp hx with ⟨hx1, hx2⟩
    exact List.inj_on_of_nodup_map hwf.2.1 hx1 hc (by simpa using hx2)
  have hlb : 0 < (s.categories.filter (fun x => x.name == c.name)).length :=
    List.length_pos.mpr (List.ne_nil_of_mem hmem)
  omega

/-- A leading `%` matches any split: the rest of the pattern must match
some suffix. -/
theorem likeMatches_pct (ps : List Char) (s : List Char) :
    likeMatches ('%' :: ps) s = true ↔ ∃ t, t <:+ s ∧ likeMatches ps t = true := by
  have h : likeMatches ('%' :: ps) s = s.tails.any (fun t => likeMatches ps t) := by
    rw [likeMatches.eq_def]
    simp
  rw [h, List.any_eq_true]
  constructor
  · rintro ⟨t, ht, hm⟩
    exact ⟨t, (List.mem_tails t s).mp ht, hm⟩
  · rintro ⟨t, ht, hm⟩
    exact ⟨t, (List.mem_tails t s).mpr ht, hm⟩

/-- A wildcard-free pattern followed by `%` matches exactly the strings it
is a prefix of. -/
theorem likeMatches_literal_pct (k : List Char) (hk : ∀ c ∈ k, c ≠ '%' ∧ c ≠ '_') :
    ∀ s : List Char, likeMatches (k ++ ['%']) s = true ↔ k <+: s := by
  induction k with
  | nil =>
    intro s
    simp only [List.nil_append, List.nil_prefix, iff_true]
    rw [likeMatches_pct]
    exact ⟨[], List.nil_suffix, by simp [likeMatches]⟩
  | cons a k ih =>
    intro s
    have ha := hk a (List.mem_cons_self a k)
    have hk' : ∀ c ∈ k, c ≠ '%' ∧ c ≠ '_' :=
      fun c hc => hk c (List.mem_cons_of_mem a hc)
    cases s with
    | nil =>
      simp [likeMatches, ha.1]
    | cons c s' =>
      simp only [List.cons_append, likeMatches, if_neg ha.1, if_neg ha.2,
        Bool.and_eq_true, beq_iff_eq, List.cons_prefix_cons, List.append_eq,
        ih hk' s']

/-- For keywords free of `LIKE` wildcards, the pattern `%keyword%` tests
substring containment. -/
theorem ilikeContains_iff_infix (k d : String)
    (hk : ∀ c ∈ lowerList k, c ≠ '%' ∧ c ≠ '_') :
    ilikeContains k d = true ↔ lowerList k <:+: lowerList d := by
  unfold ilikeContains
  rw [likeMatches_pct, List.infix_iff_prefix_suffix]
  constructor
  · rintro ⟨t, ht, hm⟩
    exact ⟨t, (likeMatches_literal_pct _ hk t).mp hm, ht⟩
  · rintro ⟨t, hpre, hsuf⟩
    exact ⟨t, hsuf, (likeMatches_literal_pct _ hk t).mpr hpre⟩

/-- Lowercasing basic-latin letters never produces a `LIKE` wildcard
character; characters other than `%` and `_` stay that way. -/
theorem toLower_wildcard_free (c : Char) (h1 : c ≠ '%') (h2 : c ≠ '_') :
    Char.toLower c ≠ '%' ∧ Char.toLower c ≠ '_' := by
  show (if c.toNat ≥ 65 ∧ c.toNat ≤ 90 then Char.ofNat (c.toNat + 32) else c) ≠ '%' ∧
    (if c.toNat ≥ 65 ∧ c.toNat ≤ 90 then Char.ofNat (c.toNat + 32) else c) ≠ '_'
  split
  case isTrue hrange =>
    have hv : (c.toNat + 32).isValidChar := Or.inl (by omega)
    have hval : (Char.ofNat (c.toNat + 32)).toNat = c.toNat + 32 := by
      rw [Char.ofNat, dif_pos hv]
      rfl
    constructor
    · intro he
      have h37 := congrArg Char.toNat he
      rw [hval] at h37
      have : ('%' : Char).toNat = 37 := by decide
      omega
    · intro he
      have h95 := congrArg Char.toNat he
      rw [hval] at h95
      have : ('_' : Char).toNat = 95 := by decide
      omega
  case isFalse => exact ⟨h1, h2⟩

/-- A keyword free of `LIKE` wildcards stays wildcard-free after the
`lower()` applied by `ilike`. -/
theorem lowerList_wildcard_free (k : String)
    (hk : ∀ c ∈ k.toList, c ≠ '%' ∧ c ≠ '_') :
    ∀ c ∈ lowerList k, c ≠ '%' ∧ c ≠ '_' := by
  intro c hc
  rcases List.mem_map.mp hc with ⟨a, ha, rfl⟩
  exact toLower_wildcard_free a (hk a ha).1 (hk a ha).2

/-- The empty keyword produces the pattern `%%`, which matches every
description. -/
theorem ilikeContains_empty (d : String) : ilikeContains "" d = true := by
  unfold ilikeContains
  rw [likeMatches_pct]
  refine ⟨lowerList d, List.suffix_rfl, ?_⟩
  have : lowerList "" = [] := rfl
  rw [this, List.nil_append]
  rw [likeMatches_pct]
  exact ⟨[], List.nil_suffix, by simp [likeMatches]⟩

/-! ### Claims -/

/-- C1: creating an expense whose `category_id` references no existing
category fails with NotFound regardless of the amount and date of the
input; with the reference in place an invalid amount reports the amount
Validation error before the date is examined, and an invalid date reports
the date Validation error only when the amount is valid — the existence
check runs before the amount check, which runs before the date check. -/
theorem C1_create_expense_validation_order :
    ∀ (s : Store) (today : Nat) (d : ExpenseCreate),
      ((∀ c ∈ s.categories, c.id ≠ d.category_id) →
        ExpenseService.create_expense s today d =
          .error (.notFound "Category" d.category_id)) ∧
      ((∃ c ∈ s.categories, c.id = d.category_id) → d.amount.toRat ≤ 0 →
        ExpenseService.create_expense s today d =
          .error (.validation "amount" "must be positive")) ∧
      ((∃ c ∈ s.categories, c.id = d.category_id) → 0 < d.amount.toRat →
        today < d.expense_date →
        ExpenseService.create_expense s today d =
          .error (.validation "expense_date" "cannot be in the future")) := by
  intro s today d
  refine ⟨?_, ?_, ?_⟩
  · intro h
    have hnone : s.getCategory d.category_id = none := by
      unfold Store.getCategory
      rw [List.find?_eq_none]
      intro x hx
      simpa using h x hx
    simp [ExpenseService.create_expense, hnone]
  · rintro ⟨c, hc, hcid⟩ hamt
    obtain ⟨x, hx⟩ : ∃ x, s.getCategory d.category_id = some x := by
      rw [← Option.isSome_iff_exists]
      unfold Store.getCategory
      rw [List.find?_isSome]
      exact ⟨c, hc, by simp [hcid]⟩
    have hnp : Dec.isNonpos d.amount = true := (Dec.isNonpos_iff _).mpr hamt
    simp [ExpenseService.create_expense, hx, hnp]
  · rintro ⟨c, hc, hcid⟩ hamt hdate
    obtain ⟨x, hx⟩ : ∃ x, s.getCategory d.category_id = some x := by
      rw [← Option.isSome_iff_exists]
      unfold Store.getCategory
      rw [List.find?_isSome]
      exact ⟨c, hc, by simp [hcid]⟩
    have hnp : Dec.isNonpos d.amount = false := by
      rw [Bool.eq_false_iff, Ne, Dec.isNonpos_iff]
      exact not_le.mpr hamt
    simp [ExpenseService.create_expense, hx, hnp, hdate]

/-- Witness for C1 at concrete inputs: a store with only category id 1,
and a create input referencing category 2 with a negative amount and a
future date, reports NotFound; the same input against category 1 reports
the amount Validation error. -/
theorem C1_create_expense_validation_order_witness :
    ExpenseService.create_expense ⟨[⟨1, "Food", none, none, none⟩], []⟩ 10
        ⟨⟨-5, 2⟩, "x", 20, 2, none⟩ = .error (.notFound "Category" 2) ∧
    ExpenseService.create_expense ⟨[⟨1, "Food", none, none, none⟩], []⟩ 10
        ⟨⟨-5, 2⟩, "x", 20, 1, none⟩ =
      .error (.validation "amount" "must be positive") ∧
    ExpenseService.create_expense ⟨[⟨1, "Food", none, none, none⟩], []⟩ 10
        ⟨⟨5, 2⟩, "x", 20, 1, none⟩ =
      .error (.validation "expense_date" "cannot be in the future") :=
  ⟨(C1_create_expense_validation_order ⟨[⟨1, "Food", none, none, none⟩], []⟩ 10
      ⟨⟨-5, 2⟩, "x", 20, 2, none⟩).1 (by decide),
   (C1_create_expense_validation_order ⟨[⟨1, "Food", none, none, none⟩], []⟩ 10
      ⟨⟨-5, 2⟩, "x", 20, 1, none⟩).2.1 ⟨⟨1, "Food", none, none, none⟩, by decide, rfl⟩
     (by norm_num [Dec.toRat]),
   (C1_create_expense_validation_order ⟨[⟨1, "Food", none, none, none⟩], []⟩ 10
      ⟨⟨5, 2⟩, "x", 20, 1, none⟩).2.2 ⟨⟨1, "Food", none, none, none⟩, by decide, rfl⟩
     (by norm_num [Dec.toRat]) (by decide)⟩

/-- C2: deleting an existing category succeeds and removes the category
row together with every expense referencing it; deleting an absent id
fails with NotFound. -/
theorem C2_delete_category_cascades :
    ∀ (s : Store) (cid : Nat),
      ((∃ c ∈ s.categories, c.id = cid) →
        ∃ s', CategoryService.delete_category s cid = .ok (s', true) ∧
          (∀ e ∈ s'.expenses, e.category_id ≠ cid) ∧
          (∀ c ∈ s'.categories, c.id ≠ cid)) ∧
      ((∀ c ∈ s.categories, c.id ≠ cid) →
        CategoryService.delete_category s cid = .error (.notFound "Category" cid)) := by
  intro s cid
  constructor
  · rintro ⟨c, hc, hcid⟩
    obtain ⟨x, hx⟩ : ∃ x, s.getCategory cid = some x := by
      rw [← Option.isSome_iff_exists]
      unfold Store.getCategory
      rw [List.find?_isSome]
      exact ⟨c, hc, by simp [hcid]⟩
    refine ⟨⟨s.categories.filter (fun c => c.id != cid),
             s.expenses.filter (fun e => e.category_id != cid)⟩, ?_, ?_, ?_⟩
    · simp [CategoryService.delete_category, hx]
    · intro e he
      have h2 := (List.mem_filter.mp he).2
      simpa using h2
    · intro x hxmem
      have h2 := (List.mem_filter.mp hxmem).2
      simpa using h2
  · intro h
    have hnone : s.getCategory cid = none := by
      unfold Store.getCategory
      rw [List.find?_eq_none]
      intro x hx
      simpa using h x hx
    simp [CategoryService.delete_category, hnone]

/-- Witness for C2: deleting category 1 removes it and its expense while
keeping the rest; deleting the absent id 3 reports NotFound. -/
theorem C2_delete_category_cascades_witness :
    (∃ s', CategoryService.delete_category
        ⟨[⟨1, "Food", none, none, none⟩, ⟨2, "Fun", none, none, none⟩],
         [⟨1, ⟨2550, 2⟩, "Lunch", 5, 1, none⟩, ⟨2, ⟨100, 2⟩, "Toy", 5, 2, none⟩]⟩ 1 =
          .ok (s', true) ∧
        (∀ e ∈ s'.expenses, e.category_id ≠ 1) ∧
        (∀ c ∈ s'.categories, c.id ≠ 1)) ∧
    CategoryService.delete_category
        ⟨[⟨1, "Food", none, none, none⟩], []⟩ 3 =
      .error (.notFound "Category" 3) :=
  ⟨(C2_delete_category_cascades
      ⟨[⟨1, "Food", none, none, none⟩, ⟨2, "Fun", none, none, none⟩],
       [⟨1, ⟨2550, 2⟩, "Lunch", 5, 1, none⟩, ⟨2, ⟨100, 2⟩, "Toy", 5, 2, none⟩]⟩ 1).1
     ⟨⟨1, "Food", none, none, none⟩, by decide, rfl⟩,
   (C2_delete_category_cascades ⟨[⟨1, "Food", none, none, none⟩], []⟩ 3).2
     (by decide)⟩

/-- C3: in a well-formed store holding a category whose name equals the
create input's name, `create_category` fails with Duplicate whatever the
other input fields are, and afterwards exactly one category row carries
that name. -/
theorem C3_create_category_duplicate_name :
    ∀ (s : Store) (d : CategoryCreate) (c : Category),
      Store.wf s → c ∈ s.categories → d.name = c.name →
      CategoryService.create_category s d =
        .error (.duplicate "Category" "name" d.name) ∧
      (resultStore (CategoryService.create_category s d) s).categories.countP
          (fun x => x.name == d.name) = 1 := by
  intro s d c hwf hc hname
  have hbyname : s.getCategoryByName d.name = some c := by
    rw [hname]
    exact getCategoryByName_of_mem s hwf c hc
  have herr : CategoryService.create_category s d =
      .error (.duplicate "Category" "name" d.name) := by
    simp [CategoryService.create_category, hbyname]
  refine ⟨herr, ?_⟩
  rw [herr]
  show s.categories.countP (fun x => x.name == d.name) = 1
  rw [hname]
  exact countP_name_eq_one s hwf c hc

/-- Witness for C3: attempting to re-create the name "X" with different
other fields reports Duplicate and leaves one "X" row. -/
theorem C3_create_category_duplicate_name_witness :
    CategoryService.create_category ⟨[⟨1, "X", none, none, none⟩], []⟩
        ⟨"X", some "other", some "icon2", some "#FF5733"⟩ =
      .error (.duplicate "Category" "name" "X") ∧
    (resultStore
        (CategoryService.create_category ⟨[⟨1, "X", none, none, none⟩], []⟩
          ⟨"X", some "other", some "icon2", some "#FF5733"⟩)
        ⟨[⟨1, "X", none, none, none⟩], []⟩).categories.countP
      (fun x => x.name == "X") = 1 :=
  C3_create_category_duplicate_name ⟨[⟨1, "X", none, none, none⟩], []⟩
    ⟨"X", some "other", some "icon2", some "#FF5733"⟩ ⟨1, "X", none, none, none⟩
    (by decide) (by decide) rfl

/-- C4: updating an existing expense with a payload whose supplied
`category_id` references no existing category fails with NotFound, the
store is left unchanged, and the stored expense row still holds all its
prior field values. -/
theorem C4_update_expense_missing_category_atomic :
    ∀ (s : Store) (today eid cid : Nat) (d : ExpenseUpdate) (e : Expense),
      s.getExpense eid = some e →
      d.category_id = some cid →
      (∀ c ∈ s.categories, c.id ≠ cid) →
      ExpenseService.update_expense s today eid d =
        .error (.notFound "Category" cid) ∧
      resultStore (ExpenseService.update_expense s today eid d) s = s ∧
      (resultStore (ExpenseService.update_expense s today eid d) s).getExpense eid =
        some e := by
  intro s today eid cid d e he hd h
  have hnone : s.getCategory cid = none := by
    unfold Store.getCategory
    rw [List.find?_eq_none]
    intro x hx
    simpa using h x hx
  have herr : ExpenseService.update_expense s today eid d =
      .error (.notFound "Category" cid) := by
    simp [ExpenseService.update_expense, he, hd, hnone]
  refine ⟨herr, ?_, ?_⟩
  · rw [herr]
    rfl
  · rw [herr]
    exact he

/-- Witness for C4: updating expense 1's category to the absent id 99999
reports NotFound and leaves the row as it was. -/
theorem C4_update_expense_missing_category_atomic_witness :
    ExpenseService.update_expense
        ⟨[⟨1, "Food", none, none, none⟩], [⟨1, ⟨2550, 2⟩, "Lunch", 5, 1, none⟩]⟩
        10 1 ⟨none, none, none, some 99999, none⟩ =
      .error (.notFound "Category" 99999) ∧
    resultStore
        (ExpenseService.update_expense
          ⟨[⟨1, "Food", none, none, none⟩], [⟨1, ⟨2550, 2⟩, "Lunch", 5, 1, none⟩]⟩
          10 1 ⟨none, none, none, some 99999, none⟩)
        ⟨[⟨1, "Food", none, none, none⟩], [⟨1, ⟨2550, 2⟩, "Lunch", 5, 1, none⟩]⟩ =
      ⟨[⟨1, "Food", none, none, none⟩], [⟨1, ⟨2550, 2⟩, "Lunch", 5, 1, none⟩]⟩ ∧
    (resultStore
        (ExpenseService.update_expense
          ⟨[⟨1, "Food", none, none, none⟩], [⟨1, ⟨2550, 2⟩, "Lunch", 5, 1, none⟩]⟩
          10 1 ⟨none, none, none, some 99999, none⟩)
        ⟨[⟨1, "Food", none, none, none⟩], [⟨1, ⟨2550, 2⟩, "Lunch", 5, 1, none⟩]⟩).getExpense 1 =
      some ⟨1, ⟨2550, 2⟩, "Lunch", 5, 1, none⟩ :=
  C4_update_expense_missing_category_atomic
    ⟨[⟨1, "Food", none, none, none⟩], [⟨1, ⟨2550, 2⟩, "Lunch", 5, 1, none⟩]⟩
    10 1 99999 ⟨none, none, none, some 99999, none⟩ ⟨1, ⟨2550, 2⟩, "Lunch", 5, 1, none⟩
    (by decide) rfl (by decide)

/-- C5: a successful partial update overwrites exactly the supplied fields
and leaves every unset field of the stored entity at its prior value, for
both categories and expenses; an empty partial payload returns the entity
with all domain fields unchanged. -/
theorem C5_partial_update_frame :
    (∀ (s : Store) (cid : Nat) (d : CategoryUpdate) (c : Category)
        (s' : Store) (c' : Category),
      s.getCategory cid = some c →
      CategoryService.update_category s cid d = .ok (s', c') →
      c'.id = c.id ∧ c'.name = d.name.getD c.name ∧
      c'.description = d.description.getD c.description ∧
      c'.icon = d.icon.getD c.icon ∧ c'.color = d.color.getD c.color) ∧
    (∀ (s : Store) (today eid : Nat) (d : ExpenseUpdate) (e : Expense)
        (s' : Store) (e' : Expense),
      s.getExpense eid = some e →
      ExpenseService.update_expense s today eid d = .ok (s', e') →
      e'.id = e.id ∧ e'.amount = d.amount.getD e.amount ∧
      e'.description = d.description.getD e.description ∧
      e'.expense_date = d.expense_date.getD e.expense_date ∧
      e'.category_id = d.category_id.getD e.category_id ∧
      e'.notes = d.notes.getD e.notes) ∧
    (∀ (s : Store) (cid : Nat) (c : Category),
      s.getCategory cid = some c →
      ∃ s', CategoryService.update_category s cid ⟨none, none, none, none⟩ =
        .ok (s', c)) ∧
    (∀ (s : Store) (today eid : Nat) (e : Expense),
      s.getExpense eid = some e →
      ∃ s', ExpenseService.update_expense s today eid
        ⟨none, none, none, none, none⟩ = .ok (s', e)) := by
  refine ⟨?_, ?_, ?_, ?_⟩
  · intro s cid d c s' c' hget hok
    simp only [CategoryService.update_category, hget] at hok
    split at hok
    · simp at hok
    · rw [Except.ok.injEq, Prod.mk.injEq] at hok
      obtain ⟨-, h2⟩ := hok
      subst h2
      exact ⟨rfl, rfl, rfl, rfl, rfl⟩
  · intro s today eid d e s' e' hget hok
    simp only [ExpenseService.update_expense, hget] at hok
    split at hok
    · simp at hok
    · split at hok
      · simp at hok
      · split at hok
        · simp at hok
        · rw [Except.ok.injEq, Prod.mk.injEq] at hok
          obtain ⟨-, h2⟩ := hok
          subst h2
          exact ⟨rfl, rfl, rfl, rfl, rfl, rfl⟩
  · intro s cid c hget
    refine ⟨⟨s.categories.map (fun x => if x.id == cid then c else x), s.expenses⟩, ?_⟩
    unfold CategoryService.update_category
    rw [hget]
    rfl
  · intro s today eid e hget
    refine ⟨⟨s.categories, s.expenses.map (fun x => if x.id == eid then e else x)⟩, ?_⟩
    unfold ExpenseService.update_expense
    rw [hget]
    rfl

/-- Witness for C5 at concrete inputs: empty partial payloads return the
stored category and expense with all domain fields unchanged. -/
theorem C5_partial_update_frame_witness :
    (∃ s', CategoryService.update_category
        ⟨[⟨1, "Food", some "d", none, none⟩], []⟩ 1 ⟨none, none, none, none⟩ =
      .ok (s', ⟨1, "Food", some "d", none, none⟩)) ∧
    (∃ s', ExpenseService.update_expense
        ⟨[⟨1, "Food", none, none, none⟩], [⟨1, ⟨2550, 2⟩, "Lunch", 5, 1, none⟩]⟩
        10 1 ⟨none, none, none, none, none⟩ =
      .ok (s', ⟨1, ⟨2550, 2⟩, "Lunch", 5, 1, none⟩)) :=
  ⟨C5_partial_update_frame.2.2.1 ⟨[⟨1, "Food", some "d", none, none⟩], []⟩ 1
      ⟨1, "Food", some "d", none, none⟩ (by decide),
   C5_partial_update_frame.2.2.2
      ⟨[⟨1, "Food", none, none, none⟩], [⟨1, ⟨2550, 2⟩, "Lunch", 5, 1, none⟩]⟩
      10 1 ⟨1, ⟨2550, 2⟩, "Lunch", 5, 1, none⟩ (by decide)⟩

/-- C6: updating an existing category with a payload that supplies a name
colliding with a different existing category's name fails with Duplicate;
supplying the category's own current name, or a name held by no category,
succeeds. -/
theorem C6_update_category_name_collision :
    ∀ (s : Store) (cid : Nat) (d : CategoryUpdate) (c : Category) (n : String),
      Store.wf s → c ∈ s.categories → c.id = cid → d.name = some n →
      ((∃ c2 ∈ s.categories, c2.name = n ∧ c2.id ≠ cid) →
        CategoryService.update_category s cid d =
          .error (.duplicate "Category" "name" n)) ∧
      ((n = c.name ∨ ∀ c2 ∈ s.categories, c2.name ≠ n) →
        ∃ s' c', CategoryService.update_category s cid d = .ok (s', c')) := by
  intro s cid d c n hwf hc hcid hd
  have hget : s.getCategory cid = some c := by
    rw [← hcid]
    exact getCategory_of_mem s hwf c hc
  constructor
  · rintro ⟨c2, hc2, hname2, hne⟩
    have hbyname : s.getCategoryByName n = some c2 := by
      rw [← hname2]
      exact getCategoryByName_of_mem s hwf c2 hc2
    simp [CategoryService.update_category, hget, hd, hbyname, hne]
  · intro hok
    refine ⟨⟨s.categories.map
        (fun x => if x.id == cid then applyCategoryUpdate c d else x), s.expenses⟩,
      applyCategoryUpdate c d, ?_⟩
    rcases hok with rfl | hnone
    · have hbyname : s.getCategoryByName c.name = some c :=
        getCategoryByName_of_mem s hwf c hc
      simp [CategoryService.update_category, hget, hd, hbyname, hcid]
    · have hbyname : s.getCategoryByName n = none := by
        unfold Store.getCategoryByName
        rw [List.find?_eq_none]
        intro x hx
        simpa using hnone x hx
      simp [CategoryService.update_category, hget, hd, hbyname]

/-- Witness for C6: renaming category 2 to the taken name "Food" reports
Duplicate; renaming it to its own name "Fun" succeeds. -/
theorem C6_update_category_name_collision_witness :
    CategoryService.update_category
        ⟨[⟨1, "Food", none, none, none⟩, ⟨2, "Fun", none, none, none⟩], []⟩ 2
        ⟨some "Food", none, none, none⟩ =
      .error (.duplicate "Category" "name" "Food") ∧
    (∃ s' c', CategoryService.update_category
        ⟨[⟨1, "Food", none, none, none⟩, ⟨2, "Fun", none, none, none⟩], []⟩ 2
        ⟨some "Fun", none, none, none⟩ = .ok (s', c')) :=
  ⟨(C6_update_category_name_collision
      ⟨[⟨1, "Food", none, none, none⟩, ⟨2, "Fun", none, none, none⟩], []⟩ 2
      ⟨some "Food", none, none, none⟩ ⟨2, "Fun", none, none, none⟩ "Food"
      (by decide) (by decide) rfl rfl).1
     ⟨⟨1, "Food", none, none, none⟩, by decide, rfl, by decide⟩,
   (C6_update_category_name_collision
      ⟨[⟨1, "Food", none, none, none⟩, ⟨2, "Fun", none, none, none⟩], []⟩ 2
      ⟨some "Fun", none, none, none⟩ ⟨2, "Fun", none, none, none⟩ "Fun"
      (by decide) (by decide) rfl rfl).2 (Or.inl rfl)⟩

/-- C7: the with-expense-counts aggregate returns one pair per stored
category in order, pairing each category with the number of expenses
referencing it; a category referenced by no expense appears with count 0
rather than being omitted. -/
theorem C7_with_expense_counts :
    ∀ s : Store,
      (CategoryService.get_categories_with_expense_count s).map Prod.fst =
        s.categories ∧
      (∀ p ∈ CategoryService.get_categories_with_expense_count s,
        p.2 = s.expenses.countP (fun e => e.category_id == p.1.id)) ∧
      (∀ c ∈ s.categories, (∀ e ∈ s.expenses, e.category_id ≠ c.id) →
        (c, 0) ∈ CategoryService.get_categories_with_expense_count s) := by
  intro s
  refine ⟨?_, ?_, ?_⟩
  · simp [CategoryService.get_categories_with_expense_count, List.map_map,
      Function.comp_def]
  · intro p hp
    rcases List.mem_map.mp hp with ⟨c, hc, rfl⟩
    simp [List.countP_eq_length_filter]
  · intro c hc hnone
    have hfil : s.expenses.filter (fun e => e.category_id == c.id) = [] := by
      rw [List.filter_eq_nil_iff]
      intro e he
      simpa using hnone e he
    exact List.mem_map.mpr ⟨c, hc, by simp [hfil]⟩

/-- Witness for C7: a two-category store where only the first category has
an expense; the second appears with count 0. -/
theorem C7_with_expense_counts_witness :
    (CategoryService.get_categories_with_expense_count
        ⟨[⟨1, "Food", none, none, none⟩, ⟨2, "Fun", none, none, none⟩],
         [⟨1, ⟨2550, 2⟩, "Lunch", 5, 1, none⟩]⟩).map Prod.fst =
      [⟨1, "Food", none, none, none⟩, ⟨2, "Fun", none, none, none⟩] ∧
    (⟨2, "Fun", none, none, none⟩, 0) ∈
      CategoryService.get_categories_with_expense_count
        ⟨[⟨1, "Food", none, none, none⟩, ⟨2, "Fun", none, none, none⟩],
         [⟨1, ⟨2550, 2⟩, "Lunch", 5, 1, none⟩]⟩ :=
  ⟨(C7_with_expense_counts
      ⟨[⟨1, "Food", none, none, none⟩, ⟨2, "Fun", none, none, none⟩],
       [⟨1, ⟨2550, 2⟩, "Lunch", 5, 1, none⟩]⟩).1,
   (C7_with_expense_counts
      ⟨[⟨1, "Food", none, none, none⟩, ⟨2, "Fun", none, none, none⟩],
       [⟨1, ⟨2550, 2⟩, "Lunch", 5, 1, none⟩]⟩).2.2 ⟨2, "Fun", none, none, none⟩
     (by decide) (by decide)⟩

/-- C8: the total-amount aggregate returns the sum of the amounts of all
stored expenses, and returns exactly 0 (not an error and not null) on a
store with no expenses. -/
theorem C8_total_amount :
    ∀ s : Store,
      ExpenseService.get_total_expense_amount s =
        (s.expenses.map (fun e => e.amount.toRat)).sum ∧
      (s.expenses = [] → ExpenseService.get_total_expense_amount s = 0) := by
  intro s
  have hmain : ExpenseService.get_total_expense_amount s =
      (s.expenses.map (fun e => e.amount.toRat)).sum := by
    unfold ExpenseService.get_total_expense_amount sqlSumAmounts
    by_cases h : (s.expenses.map (fun e => e.amount.toRat)).isEmpty = true
    · rw [if_pos h]
      rw [List.isEmpty_iff] at h
      rw [h]
      rfl
    · rw [if_neg h]
      rfl
  refine ⟨hmain, ?_⟩
  intro h
  rw [hmain, h]
  rfl

/-- Witness for C8: the empty store totals to 0, and a two-expense store
totals to the sum of its two amounts. -/
theorem C8_total_amount_witness :
    ExpenseService.get_total_expense_amount ⟨[], []⟩ = 0 ∧
    ExpenseService.get_total_expense_amount
        ⟨[⟨1, "Food", none, none, none⟩],
         [⟨1, ⟨2550, 2⟩, "Lunch", 5, 1, none⟩, ⟨2, ⟨100, 2⟩, "Toy", 5, 1, none⟩]⟩ =
      (Dec.mk 2550 2).toRat + (Dec.mk 100 2).toRat :=
  ⟨(C8_total_amount ⟨[], []⟩).2 rfl,
   by
    rw [(C8_total_amount
      ⟨[⟨1, "Food", none, none, none⟩],
       [⟨1, ⟨2550, 2⟩, "Lunch", 5, 1, none⟩, ⟨2, ⟨100, 2⟩, "Toy", 5, 1, none⟩]⟩).1]
    simp⟩

/-- C9 counterexample: with one expense whose description is "a", the
keyword "_" (a `LIKE` single-character wildcard) returns that expense even
though "_" is not a substring of "a" — search is `LIKE`-pattern matching,
not literal substring matching, for keywords containing wildcards. -/
theorem C9_search_counterexample :
    ExpenseService.search_expenses
        ⟨[⟨1, "Misc", none, none, none⟩], [⟨1, ⟨100, 2⟩, "a", 0, 1, none⟩]⟩ "_" =
      [⟨1, ⟨100, 2⟩, "a", 0, 1, none⟩] ∧
    ¬ lowerList "_" <:+: lowerList "a" := by
  constructor
  · rfl
  · decide

/-- C9 (amended): search filters on the description field only, matching
it case-insensitively against the SQL `LIKE` pattern `%keyword%`; for
keywords containing no `LIKE` wildcard character (`%` or `_`) this is
exactly case-insensitive substring containment, and the empty keyword
matches every expense. -/
theorem C9_search_description_like :
    (∀ (s : Store) (k : String) (e : Expense),
      e ∈ ExpenseService.search_expenses s k ↔
        e ∈ s.expenses ∧ ilikeContains k e.description = true) ∧
    (∀ k d : String, (∀ c ∈ k.toList, c ≠ '%' ∧ c ≠ '_') →
      (ilikeContains k d = true ↔ lowerList k <:+: lowerList d)) ∧
    (∀ s : Store, ExpenseService.search_expenses s "" = s.expenses) := by
  refine ⟨?_, ?_, ?_⟩
  · intro s k e
    simp [ExpenseService.search_expenses, List.mem_filter]
  · intro k d hk
    exact ilikeContains_iff_infix k d (lowerList_wildcard_free k hk)
  · intro s
    unfold ExpenseService.search_expenses
    rw [List.filter_eq_self]
    intro e _
    exact ilikeContains_empty e.description

/-- Witness for C9 at concrete inputs: the wildcard-free keyword "lun"
tests substring containment, and the empty keyword returns the whole
expense table. -/
theorem C9_search_description_like_witness :
    (ilikeContains "lun" "Big LUNCH" = true ↔
      lowerList "lun" <:+: lowerList "Big LUNCH") ∧
    ExpenseService.search_expenses
        ⟨[⟨1, "Misc", none, none, none⟩], [⟨1, ⟨100, 2⟩, "a", 0, 1, none⟩]⟩ "" =
      [⟨1, ⟨100, 2⟩, "a", 0, 1, none⟩] :=
  ⟨C9_search_description_like.2.1 "lun" "Big LUNCH" (by decide),
   C9_search_description_like.2.2
     ⟨[⟨1, "Misc", none, none, none⟩], [⟨1, ⟨100, 2⟩, "a", 0, 1, none⟩]⟩⟩

/-- C10 counterexample: the create contract accepts the amount `5.1`
(mantissa 51, scale 1), which carries one fractional digit, not two —
`decimal_places=2` is an upper bound, not an exact requirement. -/
theorem C10_amount_counterexample :
    ExpenseCreate.schemaAccepts ⟨⟨51, 1⟩, "x", 0, 1, none⟩ = true ∧
    (⟨51, 1⟩ : Dec).scale ≠ 2 := by
  constructor
  · rfl
  · decide

/-- C10 (amended): every amount accepted by the expense create and update
input contracts is strictly positive and has at most 2 fractional digits;
an amount that is not positive, or that has more than 2 fractional
digits, is rejected. -/
theorem C10_amount_contract :
    (∀ d : ExpenseCreate, ExpenseCreate.schemaAccepts d = true →
      0 < d.amount.toRat ∧ d.amount.scale ≤ 2) ∧
    (∀ d : ExpenseCreate, d.amount.toRat ≤ 0 ∨ 2 < d.amount.scale →
      ExpenseCreate.schemaAccepts d = false) ∧
    (∀ (d : ExpenseUpdate) (a : Dec), d.amount = some a →
      ExpenseUpdate.schemaAccepts d = true → 0 < a.toRat ∧ a.scale ≤ 2) ∧
    (∀ (d : ExpenseUpdate) (a : Dec), d.amount = some a →
      a.toRat ≤ 0 ∨ 2 < a.scale → ExpenseUpdate.schemaAccepts d = false) := by
  have hok : ∀ a : Dec, amountFieldOk a = true ↔ 0 < a.toRat ∧ a.scale ≤ 2 := by
    intro a
    unfold amountFieldOk
    rw [Bool.and_eq_true, decide_eq_true_eq, decide_eq_true_eq, Dec.pos_iff]
  refine ⟨?_, ?_, ?_, ?_⟩
  · intro d hacc
    unfold ExpenseCreate.schemaAccepts at hacc
    simp only [Bool.and_eq_true] at hacc
    exact (hok d.amount).mp hacc.1.1.1.1
  · intro d hbad
    rw [Bool.eq_false_iff]
    intro hacc
    unfold ExpenseCreate.schemaAccepts at hacc
    simp only [Bool.and_eq_true] at hacc
    have h := (hok d.amount).mp hacc.1.1.1.1
    rcases hbad with hbad | hbad
    · exact absurd h.1 (not_lt.mpr hbad)
    · exact absurd h.2 (not_le.mpr hbad)
  · intro d a ha hacc
    unfold ExpenseUpdate.schemaAccepts at hacc
    simp only [Bool.and_eq_true] at hacc
    have h1 := hacc.1.1.1
    rw [ha] at h1
    exact (hok a).mp h1
  · intro d a ha hbad
    rw [Bool.eq_false_iff]
    intro hacc
    unfold ExpenseUpdate.schemaAccepts at hacc
    simp only [Bool.and_eq_true] at hacc
    have h1 := hacc.1.1.1
    rw [ha] at h1
    have h := (hok a).mp h1
    rcases hbad with hbad | hbad
    · exact absurd h.1 (not_lt.mpr hbad)
    · exact absurd h.2 (not_le.mpr hbad)

/-- Witness for C10 at concrete inputs: the accepted amount `25.50` is
positive with at most 2 fractional digits; the amount `1.234` (three
fractional digits) is rejected by the update contract. -/
theorem C10_amount_contract_witness :
    (0 < (Dec.mk 2550 2).toRat ∧ (Dec.mk 2550 2).scale ≤ 2) ∧
    ExpenseUpdate.schemaAccepts ⟨none, some ⟨1234, 3⟩, none, none, none⟩ = false :=
  ⟨C10_amount_contract.1 ⟨⟨2550, 2⟩, "Lunch", 5, 1, none⟩ (by decide),
   C10_amount_contract.2.2.2 ⟨none, some ⟨1234, 3⟩, none, none, none⟩ ⟨1234, 3⟩ rfl
     (Or.inr (by decide))⟩
